import Mathlib

/-!
Verification of the relationship-resolution and query-builder subsystem of the
Lucid ORM repository. JavaScript scalar values are embedded as `JSVal`; stateful
builder objects are embedded as explicit state records, with methods as pure
state-transforming functions; code that throws is embedded with `Except` or a
`state × Option error` pair (the latter where the partial mutation performed
before the throw is observable to later calls).
-/

/-- A JavaScript scalar value: `undefined`, `null`, booleans, numbers (integral)
and strings. A missing object property reads as `vUndefined`. -/
inductive JSVal where
  | vUndefined : JSVal
  | vNull : JSVal
  | vBool (b : Bool) : JSVal
  | vNum (n : Int) : JSVal
  | vStr (s : String) : JSVal
deriving DecidableEq, Repr

/-- JavaScript truthiness: `undefined`, `null`, `false`, `0` and the empty
string are falsy. -/
def JSVal.falsy : JSVal → Bool
  | JSVal.vUndefined => true
  | JSVal.vNull => true
  | JSVal.vBool b => !b
  | JSVal.vNum n => n == 0
  | JSVal.vStr s => s == ""

/-- A model instance: a record of attribute name to value, as visible through
plain property access. -/
structure Model where
  attrs : List (String × JSVal)
deriving DecidableEq, Repr

/-- Property access `model[key]`: a missing attribute reads as `undefined`. -/
def Model.get (m : Model) (key : String) : JSVal :=
  (m.attrs.lookup key).getD JSVal.vUndefined

/-! ## Chainable query builder (src/Database/QueryBuilder/Chainable.ts)

Only the `between` family is needed by the claims. The builder state records
the clauses added so far, in order. -/

/-- One clause added by the four between methods of `Chainable`. -/
inductive BetweenClause where
  | whereBetween (key : String) (lo hi : JSVal)
  | orWhereBetween (key : String) (lo hi : JSVal)
  | whereNotBetween (key : String) (lo hi : JSVal)
  | orWhereNotBetween (key : String) (lo hi : JSVal)
deriving DecidableEq, Repr

/-- State of the chainable builder: the clauses added so far. -/
structure ChainState where
  clauses : List BetweenClause
deriving DecidableEq, Repr

/-- From `Chainable.transformValue`: for plain scalar values (neither a
sub-query builder, a callback, nor a raw query — none of which are scalar
`JSVal`s) the value is returned unchanged. -/
def Chainable.transformValue (v : JSVal) : JSVal := v

/-- From `Chainable.getBetweenPair`: destructures the pair and throws
`Invalid array for whereBetween value` when either bound is falsy, otherwise
returns both bounds passed through `transformValue`. -/
def Chainable.getBetweenPair (value : JSVal × JSVal) : Except String (JSVal × JSVal) :=
  if value.1.falsy || value.2.falsy then
    Except.error "Invalid array for whereBetween value"
  else
    Except.ok (Chainable.transformValue value.1, Chainable.transformValue value.2)

/-- From `Chainable.whereBetween`. -/
def Chainable.whereBetween (s : ChainState) (key : String) (value : JSVal × JSVal) :
    Except String ChainState :=
  match Chainable.getBetweenPair value with
  | Except.error e => Except.error e
  | Except.ok p => Except.ok ⟨s.clauses ++ [BetweenClause.whereBetween key p.1 p.2]⟩

/-- From `Chainable.orWhereBetween`. -/
def Chainable.orWhereBetween (s : ChainState) (key : String) (value : JSVal × JSVal) :
    Except String ChainState :=
  match Chainable.getBetweenPair value with
  | Except.error e => Except.error e
  | Except.ok p => Except.ok ⟨s.clauses ++ [BetweenClause.orWhereBetween key p.1 p.2]⟩

/-- From `Chainable.whereNotBetween`. -/
def Chainable.whereNotBetween (s : ChainState) (key : String) (value : JSVal × JSVal) :
    Except String ChainState :=
  match Chainable.getBetweenPair value with
  | Except.error e => Except.error e
  | Except.ok p => Except.ok ⟨s.clauses ++ [BetweenClause.whereNotBetween key p.1 p.2]⟩

/-- From `Chainable.orWhereNotBetween`. -/
def Chainable.orWhereNotBetween (s : ChainState) (key : String) (value : JSVal × JSVal) :
    Except String ChainState :=
  match Chainable.getBetweenPair value with
  | Except.error e => Except.error e
  | Except.ok p => Except.ok ⟨s.clauses ++ [BetweenClause.orWhereNotBetween key p.1 p.2]⟩

/-- Claim C9: each of the four between methods throws
`Invalid array for whereBetween value` whenever either bound of the pair is
falsy (which includes 0, the empty string, null and undefined), and with two
truthy bounds appends the corresponding clause and succeeds. -/
theorem chainable_between_rejects_falsy_bounds (s : ChainState) (key : String) (l r : JSVal) :
    ((l.falsy || r.falsy) = true →
      Chainable.whereBetween s key (l, r) = Except.error "Invalid array for whereBetween value" ∧
      Chainable.orWhereBetween s key (l, r) = Except.error "Invalid array for whereBetween value" ∧
      Chainable.whereNotBetween s key (l, r) = Except.error "Invalid array for whereBetween value" ∧
      Chainable.orWhereNotBetween s key (l, r) = Except.error "Invalid array for whereBetween value")
    ∧
    ((l.falsy || r.falsy) = false →
      Chainable.whereBetween s key (l, r) =
        Except.ok ⟨s.clauses ++ [BetweenClause.whereBetween key l r]⟩ ∧
      Chainable.orWhereBetween s key (l, r) =
        Except.ok ⟨s.clauses ++ [BetweenClause.orWhereBetween key l r]⟩ ∧
      Chainable.whereNotBetween s key (l, r) =
        Except.ok ⟨s.clauses ++ [BetweenClause.whereNotBetween key l r]⟩ ∧
      Chainable.orWhereNotBetween s key (l, r) =
        Except.ok ⟨s.clauses ++ [BetweenClause.orWhereNotBetween key l r]⟩) := by
  constructor
  · intro h
    simp [Chainable.whereBetween, Chainable.orWhereBetween, Chainable.whereNotBetween,
      Chainable.orWhereNotBetween, Chainable.getBetweenPair, h]
  · intro h
    simp [Chainable.whereBetween, Chainable.orWhereBetween, Chainable.whereNotBetween,
      Chainable.orWhereNotBetween, Chainable.getBetweenPair, Chainable.transformValue, h]

/-- Witness for claim C9: the legitimate numeric bound 0 is rejected, while the
truthy pair (1, 2) produces the between clause. -/
theorem chainable_between_rejects_falsy_bounds_witness :
    (Chainable.whereBetween ⟨[]⟩ "age" (JSVal.vNum 0, JSVal.vNum 10)
      = Except.error "Invalid array for whereBetween value")
    ∧
    (Chainable.whereBetween ⟨[]⟩ "age" (JSVal.vNum 1, JSVal.vNum 2)
      = Except.ok ⟨[BetweenClause.whereBetween "age" (JSVal.vNum 1) (JSVal.vNum 2)]⟩) := by
  refine ⟨?_, ?_⟩
  · exact ((chainable_between_rejects_falsy_bounds ⟨[]⟩ "age" (JSVal.vNum 0)
      (JSVal.vNum 10)).1 (by decide)).1
  · exact ((chainable_between_rejects_falsy_bounds ⟨[]⟩ "age" (JSVal.vNum 1)
      (JSVal.vNum 2)).2 (by decide)).1

/-! ## HasOne relationship query builder (src/Orm/Relations/HasOne/QueryBuilder.ts)

The underlying knex builder state records the where, whereIn and limit clauses
the relationship constraints can add. The parent is either a single model
instance or an array of instances (the batched eager-load case). -/

/-- State of the underlying knex query builder, restricted to the clauses
`applyConstraints` can add. -/
structure KnexState where
  wheres : List (String × JSVal)
  whereIns : List (String × List JSVal)
  limitClause : Option Int
deriving DecidableEq, Repr

/-- The resolved keys of a booted HasOne relation used by its query builder. -/
structure HasOneRelationKeys where
  localKey : String
  foreignCastAsKey : String
  relationName : String
deriving DecidableEq, Repr

/-- The `parent` constructor argument: a single model or an array of models. -/
inductive ParentArg where
  | one (m : Model)
  | many (ms : List Model)
deriving DecidableEq, Repr

/-- State of a `HasOneQueryBuilder` instance. `queryAction` is the result of
the inherited `$queryAction()` accessor. -/
structure HasOneQueryBuilder where
  knex : KnexState
  parent : ParentArg
  relation : HasOneRelationKeys
  appliedConstraints : Bool
  queryAction : String
deriving DecidableEq, Repr

/-- Modelled from the spec: the helper `getValue` (imported from utils, which is
not under src) returns the value of the given key on the model and fails fast
with a value-undefined error when that value is undefined. -/
def getValue (m : Model) (key : String) (relationName action : String) : Except String JSVal :=
  let v := m.get key
  if v = JSVal.vUndefined then
    Except.error ("Cannot " ++ action ++ " " ++ relationName ++ ", value of " ++ key ++ " is undefined")
  else
    Except.ok v

/-- Modelled from the spec: the helper `unique` (imported from utils, which is
not under src) removes duplicate values, keeping the first occurrence of each. -/
def unique (xs : List JSVal) : List JSVal :=
  xs.foldl (fun acc x => if x ∈ acc then acc else acc ++ [x]) []

/-- From `HasOneQueryBuilder.applyConstraints`. The second component is the
error thrown, if any; the first is the builder state after the call, since in
the source the guard flag is mutated before any exception can be raised. -/
def HasOneQueryBuilder.applyConstraints (b : HasOneQueryBuilder) :
    HasOneQueryBuilder × Option String :=
  if b.appliedConstraints then (b, none)
  else
    let b1 := { b with appliedConstraints := true }
    match b1.parent with
    | ParentArg.many models =>
      match models.mapM (fun m =>
          getValue m b1.relation.localKey b1.relation.relationName b1.queryAction) with
      | Except.error e => (b1, some e)
      | Except.ok values =>
        ({ b1 with knex := { b1.knex with
            whereIns := b1.knex.whereIns ++ [(b1.relation.foreignCastAsKey, unique values)] } },
         none)
    | ParentArg.one m =>
      match getValue m b1.relation.localKey b1.relation.relationName b1.queryAction with
      | Except.error e => (b1, some e)
      | Except.ok value =>
        let knex1 := { b1.knex with
          wheres := b1.knex.wheres ++ [(b1.relation.foreignCastAsKey, value)] }
        let knex2 :=
          if b1.queryAction = "update" || b1.queryAction = "delete" then knex1
          else { knex1 with limitClause := some 1 }
        ({ b1 with knex := knex2 }, none)

/-- Claim C2: on the first `applyConstraints` run, a single parent adds the
where constraint on the foreign column with the local-key value of the parent,
plus limit 1 unless the query action is update or delete; an array parent adds
a whereIn on the distinct local-key values and never touches the limit. -/
theorem hasOne_applyConstraints_first_run (b : HasOneQueryBuilder)
    (hfirst : b.appliedConstraints = false) :
    (∀ m v, b.parent = ParentArg.one m →
      getValue m b.relation.localKey b.relation.relationName b.queryAction = Except.ok v →
      (b.applyConstraints.2 = none ∧
       b.applyConstraints.1.knex.wheres = b.knex.wheres ++ [(b.relation.foreignCastAsKey, v)] ∧
       b.applyConstraints.1.knex.whereIns = b.knex.whereIns ∧
       ((b.queryAction = "update" ∨ b.queryAction = "delete") →
          b.applyConstraints.1.knex.limitClause = b.knex.limitClause) ∧
       (¬(b.queryAction = "update" ∨ b.queryAction = "delete") →
          b.applyConstraints.1.knex.limitClause = some 1)))
    ∧
    (∀ ms vs, b.parent = ParentArg.many ms →
      ms.mapM (fun m =>
        getValue m b.relation.localKey b.relation.relationName b.queryAction) = Except.ok vs →
      (b.applyConstraints.2 = none ∧
       b.applyConstraints.1.knex.whereIns
         = b.knex.whereIns ++ [(b.relation.foreignCastAsKey, unique vs)] ∧
       b.applyConstraints.1.knex.wheres = b.knex.wheres ∧
       b.applyConstraints.1.knex.limitClause = b.knex.limitClause)) := by
  constructor
  · intro m v hp hv
    simp [HasOneQueryBuilder.applyConstraints, hfirst, hp, hv]
    by_cases hu : b.queryAction = "update" <;> by_cases hd : b.queryAction = "delete" <;>
      simp [hu, hd]
  · intro ms vs hp hv
    have hv2 : List.mapM.loop (fun m =>
        getValue m b.relation.localKey b.relation.relationName b.queryAction) ms []
        = Except.ok vs := hv
    simp [HasOneQueryBuilder.applyConstraints, hfirst, hp, hv, hv2]

/-- Witness for claim C2: a concrete first-run builder over a single parent with
id 7 and select action gains the where clause and limit 1. -/
theorem hasOne_applyConstraints_first_run_witness :
    (HasOneQueryBuilder.applyConstraints
      { knex := { wheres := [], whereIns := [], limitClause := none },
        parent := ParentArg.one ⟨[("id", JSVal.vNum 7)]⟩,
        relation := { localKey := "id", foreignCastAsKey := "user_id", relationName := "profile" },
        appliedConstraints := false,
        queryAction := "select" }).1.knex.wheres = [("user_id", JSVal.vNum 7)]
    ∧
    (HasOneQueryBuilder.applyConstraints
      { knex := { wheres := [], whereIns := [], limitClause := none },
        parent := ParentArg.one ⟨[("id", JSVal.vNum 7)]⟩,
        relation := { localKey := "id", foreignCastAsKey := "user_id", relationName := "profile" },
        appliedConstraints := false,
        queryAction := "select" }).1.knex.limitClause = some 1 := by
  have h := (hasOne_applyConstraints_first_run
    { knex := { wheres := [], whereIns := [], limitClause := none },
      parent := ParentArg.one ⟨[("id", JSVal.vNum 7)]⟩,
      relation := { localKey := "id", foreignCastAsKey := "user_id", relationName := "profile" },
      appliedConstraints := false,
      queryAction := "select" } rfl).1
    ⟨[("id", JSVal.vNum 7)]⟩ (JSVal.vNum 7) rfl rfl
  exact ⟨h.2.1, h.2.2.2.2 (by decide)⟩

/-- After any `applyConstraints` call the guard flag is set. -/
theorem applyConstraints_sets_flag (b : HasOneQueryBuilder) :
    b.applyConstraints.1.appliedConstraints = true := by
  unfold HasOneQueryBuilder.applyConstraints
  by_cases h : b.appliedConstraints = true
  · simp [h]
  · simp only [if_neg h]
    split <;> split <;> simp

/-- `applyConstraints` on a builder whose guard flag is set does nothing. -/
theorem applyConstraints_flagged (b : HasOneQueryBuilder) (h : b.appliedConstraints = true) :
    b.applyConstraints = (b, none) := by
  unfold HasOneQueryBuilder.applyConstraints
  simp [h]

/-- Claim C3: `applyConstraints` is idempotent per builder instance — after one
call, every further call returns the state unchanged (and raises nothing), so
iterating it any number of further times equals calling it once. -/
theorem hasOne_applyConstraints_idempotent (b : HasOneQueryBuilder) (n : Nat) :
    HasOneQueryBuilder.applyConstraints b.applyConstraints.1 = (b.applyConstraints.1, none) ∧
    (fun s : HasOneQueryBuilder => s.applyConstraints.1)^[n] b.applyConstraints.1
      = b.applyConstraints.1 := by
  have hfix := applyConstraints_flagged _ (applyConstraints_sets_flag b)
  refine ⟨hfix, ?_⟩
  induction n with
  | zero => rfl
  | succ k ih =>
    simp only [Function.iterate_succ_apply, hfix]
    exact ih

/-! ## HasOne grouping (src/Lucid/Relations/HasOne.js)

`group` folds the related instances into an ordered list of
identity-to-instance rows, overwriting the value of an existing row when the
identity repeats. -/

/-- One row of the grouped values: a foreign-key identity paired with the
related instance currently held for it. -/
structure GroupRow where
  identity : JSVal
  value : Model
deriving DecidableEq, Repr

/-- The body of the transform in `HasOne.group`: locate an existing row with
the same identity and overwrite its value, else push a new row at the end. -/
def insertGrouped (fkValue : JSVal) (inst : Model) : List GroupRow → List GroupRow
  | [] => [⟨fkValue, inst⟩]
  | row :: rest =>
    if row.identity = fkValue then ⟨row.identity, inst⟩ :: rest
    else row :: insertGrouped fkValue inst rest

/-- The record returned by `HasOne.group`. -/
structure GroupResult where
  key : String
  values : List GroupRow
  defaultValue : JSVal
deriving DecidableEq, Repr

/-- From `HasOne.group`: fold the related instances in order, grouping them by
the value of their foreign-key attribute; the result carries the primary key
as lookup key and null as default. -/
def HasOne.group (primaryKey foreignKey : String) (relatedInstances : List Model) : GroupResult :=
  { key := primaryKey
    values := relatedInstances.foldl
      (fun result inst => insertGrouped (inst.get foreignKey) inst result) []
    defaultValue := JSVal.vNull }

/-- Reading the grouped rows as a mapping: the instance held for a given
foreign-key value. -/
def lookupIdentity (rows : List GroupRow) (v : JSVal) : Option Model :=
  (rows.find? (fun r => decide (r.identity = v))).map GroupRow.value

/-- The last instance of the input sequence whose foreign-key value is `v`. -/
def lastMatching (foreignKey : String) (insts : List Model) (v : JSVal) : Option Model :=
  insts.reverse.find? (fun i => decide (i.get foreignKey = v))

/-- Inserting one instance rewires exactly the row of its own identity. -/
theorem lookupIdentity_insertGrouped (fkv : JSVal) (inst : Model) (acc : List GroupRow)
    (v : JSVal) :
    lookupIdentity (insertGrouped fkv inst acc) v
      = if fkv = v then some inst else lookupIdentity acc v := by
  induction acc with
  | nil =>
    by_cases h : fkv = v <;> simp [insertGrouped, lookupIdentity, List.find?, h]
  | cons row rest ih =>
    by_cases hr : row.identity = fkv
    · by_cases h : fkv = v
      · subst h
        simp [insertGrouped, lookupIdentity, List.find?, hr]
      · have hrv : ¬(row.identity = v) := by rw [hr]; exact h
        simp [insertGrouped, lookupIdentity, List.find?, hr, hrv, h]
    · by_cases hrv : row.identity = v
      · have h : ¬(fkv = v) := by intro hc; exact hr (by rw [hrv, hc])
        have hvf : ¬(v = fkv) := fun hc => h hc.symm
        simp [insertGrouped, lookupIdentity, List.find?, hr, hrv, h, hvf]
      · simpa [insertGrouped, lookupIdentity, List.find?, hr, hrv] using ih

/-- find? distributes over append, preferring the left list. -/
theorem find?_append_split {α : Type} (p : α → Bool) (l₁ l₂ : List α) :
    (l₁ ++ l₂).find? p = match l₁.find? p with
      | some x => some x
      | none => l₂.find? p := by
  induction l₁ with
  | nil => simp
  | cons a l ih =>
    by_cases h : p a <;> simp [List.find?, h, ih]

/-- Folding instances into the grouped rows: a lookup returns the last
matching instance, falling back to the accumulator. -/
theorem lookupIdentity_foldl (foreignKey : String) (insts : List Model)
    (acc : List GroupRow) (v : JSVal) :
    lookupIdentity (insts.foldl
        (fun result inst => insertGrouped (inst.get foreignKey) inst result) acc) v
      = match lastMatching foreignKey insts v with
        | some m => some m
        | none => lookupIdentity acc v := by
  induction insts generalizing acc with
  | nil => simp [lastMatching]
  | cons i rest ih =>
    rw [List.foldl_cons, ih]
    have hsplit : lastMatching foreignKey (i :: rest) v
        = match lastMatching foreignKey rest v with
          | some m => some m
          | none => if i.get foreignKey = v then some i else none := by
      unfold lastMatching
      rw [List.reverse_cons, find?_append_split]
      cases rest.reverse.find? (fun j => decide (j.get foreignKey = v)) <;>
        by_cases h : i.get foreignKey = v <;> simp [List.find?, h]
    rw [hsplit]
    cases hrest : lastMatching foreignKey rest v with
    | none => by_cases hi : i.get foreignKey = v <;> simp [lookupIdentity_insertGrouped, hi]
    | some m => simp [lookupIdentity_insertGrouped]

/-- Claim C4: `group` builds a mapping from foreign-key value to a single
related instance in which a later instance with the same foreign-key value
overwrites an earlier one — every foreign-key value maps to exactly the last
matching instance of the input sequence. -/
theorem hasOne_group_last_write_wins (primaryKey foreignKey : String)
    (relatedInstances : List Model) (v : JSVal) :
    lookupIdentity (HasOne.group primaryKey foreignKey relatedInstances).values v
      = lastMatching foreignKey relatedInstances v := by
  unfold HasOne.group
  rw [lookupIdentity_foldl]
  cases h : lastMatching foreignKey relatedInstances v <;>
    simp [lookupIdentity, List.find?]

/-- Propositional equality of `Except` results is decidable componentwise; used
to evaluate the embedded fallible operations on concrete inputs. -/
instance {ε α : Type} [DecidableEq ε] [DecidableEq α] : DecidableEq (Except ε α) := fun a b =>
  match a, b with
  | Except.error e1, Except.error e2 =>
    if h : e1 = e2 then Decidable.isTrue (h ▸ rfl)
    else Decidable.isFalse (fun hc => h (Except.error.inj hc))
  | Except.error _, Except.ok _ => Decidable.isFalse (fun hc => Except.noConfusion hc)
  | Except.ok _, Except.error _ => Decidable.isFalse (fun hc => Except.noConfusion hc)
  | Except.ok a1, Except.ok a2 =>
    if h : a1 = a2 then Decidable.isTrue (h ▸ rfl)
    else Decidable.isFalse (fun hc => h (Except.ok.inj hc))

/-! ## HasMany matching (the HasMany relation class under src/example) -/

/-- The fields of a `HasMany` relation read by `$setRelatedForMany`. -/
structure HasManyRel where
  relationName : String
  localKey : String
  foreignKey : String
  booted : Bool
deriving DecidableEq, Repr

/-- Modelled from the spec: `ensureRelationIsBooted` (imported from utils,
which is not under src) fails when the relation has not been booted. -/
def ensureRelationIsBooted (rel : HasManyRel) : Except String Unit :=
  if rel.booted then Except.ok () else Except.error "Relationship is not booted"

/-- From `HasMany.$setRelatedForMany`: each parent is assigned the related
instances passing the per-row predicate, which requires the parent value to be
defined and the foreign-key value of the row to strictly equal it. The result
pairs every parent with the collection assigned to it. -/
def HasMany.setRelatedForMany (rel : HasManyRel) (parents related : List Model) :
    Except String (List (Model × List Model)) :=
  match ensureRelationIsBooted rel with
  | Except.error e => Except.error e
  | Except.ok _ =>
    Except.ok (parents.map (fun parentModel =>
      let value := parentModel.get rel.localKey
      (parentModel, related.filter (fun relatedModel =>
        decide (value ≠ JSVal.vUndefined) &&
        decide (relatedModel.get rel.foreignKey = value)))))

/-- The rows claim C5 says a parent receives: the related rows whose
foreign-key value equals the local-key value of the parent — plain strict
equality, with no definedness guard. This definition follows the words of the
claim, for comparison with the source function. -/
def specMatchingRows (rel : HasManyRel) (parentModel : Model) (related : List Model) :
    List Model :=
  related.filter (fun relatedModel =>
    decide (relatedModel.get rel.foreignKey = parentModel.get rel.localKey))

/-- The guarded per-row predicate collapses to an emptiness test on the parent
value followed by the plain equality filter. -/
theorem filter_guard_undefined (v : JSVal) (fk : String) (related : List Model) :
    related.filter (fun r => decide (v ≠ JSVal.vUndefined) && decide (r.get fk = v))
      = if v = JSVal.vUndefined then []
        else related.filter (fun r => decide (r.get fk = v)) := by
  by_cases hv : v = JSVal.vUndefined
  · simp [hv]
  · simp [hv]

/-- Relation used by the counterexample to claim C5. -/
def c5Relation : HasManyRel :=
  { relationName := "posts", localKey := "id", foreignKey := "countryId", booted := true }

/-- Parent instance with no attributes: its local-key value reads undefined. -/
def c5Parent : Model := { attrs := [] }

/-- Related instance with no attributes: its foreign-key value reads
undefined, so it strictly equals the local-key value of `c5Parent`. -/
def c5Related : Model := { attrs := [] }

/-- Counterexample to claim C5 as stated: the foreign-key value of the related
row equals the local-key value of the parent (both are undefined), so the claim
assigns the row to the parent, yet the source assigns the empty collection. -/
theorem setRelatedForMany_equal_undefined_keys_counterexample :
    HasMany.setRelatedForMany c5Relation [c5Parent] [c5Related]
      = Except.ok [(c5Parent, ([] : List Model))]
    ∧ c5Related.get c5Relation.foreignKey = c5Parent.get c5Relation.localKey
    ∧ specMatchingRows c5Relation c5Parent [c5Related] = [c5Related]
    ∧ ([] : List Model) ≠ [c5Related] := by
  refine ⟨by decide, by decide, by decide, by decide⟩

/-- Claim C5 (amended): for a booted relation, a parent whose local-key value
is defined is assigned exactly the related rows whose foreign-key value equals
it, in input order; a parent whose local-key value is undefined, like one with
no matching rows, is assigned the empty collection; no error is raised. -/
theorem setRelatedForMany_matches_defined_keys (rel : HasManyRel)
    (parents related : List Model) (hb : rel.booted = true) :
    HasMany.setRelatedForMany rel parents related
      = Except.ok (parents.map (fun parentModel =>
          (parentModel,
            if parentModel.get rel.localKey = JSVal.vUndefined then []
            else specMatchingRows rel parentModel related))) := by
  simp [HasMany.setRelatedForMany, ensureRelationIsBooted, hb, specMatchingRows]
  intro a _
  by_cases hv : a.get rel.localKey = JSVal.vUndefined <;> simp [hv]

/-- Witness for the amended claim C5: two parents, one with id 1 and one with
id 2, against three related rows; each parent receives its matching rows in
input order. -/
theorem setRelatedForMany_matches_defined_keys_witness :
    HasMany.setRelatedForMany c5Relation
        [{ attrs := [("id", JSVal.vNum 1)] }, { attrs := [("id", JSVal.vNum 2)] }]
        [{ attrs := [("countryId", JSVal.vNum 1), ("title", JSVal.vStr "a")] },
         { attrs := [("countryId", JSVal.vNum 2), ("title", JSVal.vStr "b")] },
         { attrs := [("countryId", JSVal.vNum 1), ("title", JSVal.vStr "c")] }]
      = Except.ok
        [({ attrs := [("id", JSVal.vNum 1)] },
          [{ attrs := [("countryId", JSVal.vNum 1), ("title", JSVal.vStr "a")] },
           { attrs := [("countryId", JSVal.vNum 1), ("title", JSVal.vStr "c")] }]),
         ({ attrs := [("id", JSVal.vNum 2)] },
          [{ attrs := [("countryId", JSVal.vNum 2), ("title", JSVal.vStr "b")] }])] := by
  rw [setRelatedForMany_matches_defined_keys c5Relation _ _ rfl]
  decide

/-- Claim C10: in `$setRelatedForMany`, a parent whose local-key value is
undefined is assigned the empty collection regardless of the related rows —
also when rows whose foreign-key value is undefined exist — and no error is
raised for it. -/
theorem setRelatedForMany_undefined_parent_gets_empty (rel : HasManyRel)
    (parents related : List Model) (outs : List (Model × List Model))
    (hb : rel.booted = true)
    (hout : HasMany.setRelatedForMany rel parents related = Except.ok outs)
    (i : Nat) (hi : i < parents.length)
    (hu : (parents.get ⟨i, hi⟩).get rel.localKey = JSVal.vUndefined) :
    outs.get? i = some (parents.get ⟨i, hi⟩, ([] : List Model)) := by
  rw [setRelatedForMany_matches_defined_keys rel parents related hb] at hout
  have houts : outs = parents.map (fun parentModel =>
      (parentModel,
        if parentModel.get rel.localKey = JSVal.vUndefined then []
        else specMatchingRows rel parentModel related)) := (Except.ok.inj hout).symm
  rw [houts, List.get?_map, List.get?_eq_get hi]
  have hu2 : parents[i].get rel.localKey = JSVal.vUndefined := hu
  simp [hu2]

/-- Witness for claim C10: a single parent with undefined local key and a
related row with an explicitly undefined foreign key; the parent still receives
the empty collection. -/
theorem setRelatedForMany_undefined_parent_gets_empty_witness :
    ([(({ attrs := [] } : Model), ([] : List Model))]).get? 0
      = some (({ attrs := [] } : Model), ([] : List Model)) :=
  setRelatedForMany_undefined_parent_gets_empty
    c5Relation [{ attrs := [] }] [{ attrs := [("countryId", JSVal.vUndefined)] }]
    [({ attrs := [] }, [])] rfl (by decide) 0 (by decide) rfl

/-! ## HasMany boot (the HasMany relation class under src/example)

The keys extractor class itself is external to the sources; `boot` is embedded
with the deterministic outcome of the extraction passed in as an argument, so
the idempotence statements hold for every possible extractor. -/

/-- One key as returned by the keys extractor: the attribute name and the
column it is cast as. -/
structure ExtractedKey where
  attributeName : String
  castAsKey : String
deriving DecidableEq, Repr

/-- The pair of keys extracted for a has-many relation. -/
structure ExtractedKeys where
  localKey : ExtractedKey
  foreignKey : ExtractedKey
deriving DecidableEq, Repr

/-- The state of a `HasMany` relation around `boot`: the booted flag and the
key fields that only become available after boot. -/
structure HasManyBootState where
  relationName : String
  booted : Bool
  localKey : Option String
  localCastAsKey : Option String
  foreignKey : Option String
  foreignCastAsKey : Option String
deriving DecidableEq, Repr

/-- From `HasMany.boot`: an early return when already booted, otherwise key
extraction, field assignment and setting the flag last. When the extraction
throws, nothing has been mutated yet. The second component is the error
raised, if any. -/
def HasMany.boot (extract : Except String ExtractedKeys) (s : HasManyBootState) :
    HasManyBootState × Option String :=
  if s.booted then (s, none)
  else
    match extract with
    | Except.error e => (s, some e)
    | Except.ok keys =>
      ({ s with
          localKey := some keys.localKey.attributeName
          localCastAsKey := some keys.localKey.castAsKey
          foreignKey := some keys.foreignKey.attributeName
          foreignCastAsKey := some keys.foreignKey.castAsKey
          booted := true }, none)

/-- A successful boot leaves the flag set. -/
theorem boot_sets_flag (keys : ExtractedKeys) (s : HasManyBootState) :
    (HasMany.boot (Except.ok keys) s).1.booted = true := by
  unfold HasMany.boot
  by_cases h : s.booted = true <;> simp [h]

/-- `boot` on a booted relation returns it unchanged, whatever the extraction
outcome would be, and raises nothing. -/
theorem boot_flagged (extract : Except String ExtractedKeys) (s : HasManyBootState)
    (h : s.booted = true) : HasMany.boot extract s = (s, none) := by
  unfold HasMany.boot
  simp [h]

/-- Iterating `boot` after a successful boot never moves the state. -/
theorem boot_iterate_fixed (keys : ExtractedKeys) (s : HasManyBootState) (k : Nat) :
    (fun t : HasManyBootState => (HasMany.boot (Except.ok keys) t).1)^[k]
        (HasMany.boot (Except.ok keys) s).1
      = (HasMany.boot (Except.ok keys) s).1 := by
  induction k with
  | zero => rfl
  | succ j ih =>
    simp only [Function.iterate_succ_apply,
      boot_flagged (Except.ok keys) _ (boot_sets_flag keys s)]
    exact ih

/-- Claim C6: for a valid relation descriptor — one whose key extraction
succeeds — `boot` is idempotent: every call after the first returns the state
of the first call unchanged and raises no validation error (whatever a renewed
extraction would return, since the early return on the flag skips it), so
calling `boot` N times leaves the resolved keys of the first call intact. -/
theorem hasMany_boot_idempotent (keys : ExtractedKeys) (s : HasManyBootState) (n : Nat)
    (hn : 1 ≤ n) :
    (∀ extract2, HasMany.boot extract2 (HasMany.boot (Except.ok keys) s).1
        = ((HasMany.boot (Except.ok keys) s).1, none)) ∧
    (fun t : HasManyBootState => (HasMany.boot (Except.ok keys) t).1)^[n] s
      = (HasMany.boot (Except.ok keys) s).1 := by
  refine ⟨fun extract2 => boot_flagged extract2 _ (boot_sets_flag keys s), ?_⟩
  obtain ⟨k, rfl⟩ : ∃ k, n = k + 1 := ⟨n - 1, by omega⟩
  rw [Function.iterate_succ_apply]
  exact boot_iterate_fixed keys s k

/-- Witness for claim C6: booting a posts relation twice resolves the keys
once; a second call returns the identical state and no error, even against an
extraction outcome that would fail. -/
theorem hasMany_boot_idempotent_witness :
    (HasMany.boot (Except.error "E_MISSING_MODEL_ATTRIBUTE")
        (HasMany.boot (Except.ok ⟨⟨"id", "id"⟩, ⟨"countryId", "country_id"⟩⟩)
          { relationName := "posts", booted := false, localKey := none,
            localCastAsKey := none, foreignKey := none, foreignCastAsKey := none }).1
      = ((HasMany.boot (Except.ok ⟨⟨"id", "id"⟩, ⟨"countryId", "country_id"⟩⟩)
          { relationName := "posts", booted := false, localKey := none,
            localCastAsKey := none, foreignKey := none, foreignCastAsKey := none }).1, none))
    ∧
    ((fun t : HasManyBootState =>
        (HasMany.boot (Except.ok ⟨⟨"id", "id"⟩, ⟨"countryId", "country_id"⟩⟩) t).1)^[2]
        { relationName := "posts", booted := false, localKey := none,
          localCastAsKey := none, foreignKey := none, foreignCastAsKey := none }
      = (HasMany.boot (Except.ok ⟨⟨"id", "id"⟩, ⟨"countryId", "country_id"⟩⟩)
          { relationName := "posts", booted := false, localKey := none,
            localCastAsKey := none, foreignKey := none, foreignCastAsKey := none }).1) := by
  have h := hasMany_boot_idempotent ⟨⟨"id", "id"⟩, ⟨"countryId", "country_id"⟩⟩
    { relationName := "posts", booted := false, localKey := none,
      localCastAsKey := none, foreignKey := none, foreignCastAsKey := none } 2 (by decide)
  exact ⟨h.1 (Except.error "E_MISSING_MODEL_ATTRIBUTE"), h.2⟩

/-! ## HasManyThrough query (src/Orm/Relations/HasManyThrough/QueryClient.ts)

The query client constructs the relationship query builder; the builder class
itself is not among the sources, so its constraint application is modelled
from the spec and checked against the concrete SQL scenario. -/

/-- The resolved keys and tables of a booted HasManyThrough relation. -/
structure HasManyThroughKeys where
  localKey : String
  localKeyColumnName : String
  foreignKeyColumnName : String
  throughLocalKeyColumnName : String
  throughForeignKeyColumnName : String
  relatedTable : String
  throughTable : String
deriving DecidableEq, Repr

/-- The observable state of the built select query: source table, selected
columns, inner joins as table-column-column triples, and filters. -/
structure SelectQuery where
  fromTable : String
  selects : List String
  innerJoins : List (String × String × String)
  wheres : List (String × JSVal)
  whereIns : List (String × List JSVal)
deriving DecidableEq, Repr

/-- State of a `HasManyThroughQueryBuilder` instance. -/
structure HasManyThroughQueryBuilder where
  query : SelectQuery
  parent : ParentArg
  relation : HasManyThroughKeys
  appliedConstraints : Bool
deriving DecidableEq, Repr

/-- From `HasManyThroughClient.query`: a fresh relationship query builder over
the blank knex query of the client, holding the parent models and the
relation. -/
def HasManyThroughClient.query (models : ParentArg) (relation : HasManyThroughKeys) :
    HasManyThroughQueryBuilder :=
  { query := { fromTable := "", selects := [], innerJoins := [], wheres := [], whereIns := [] },
    parent := models, relation := relation, appliedConstraints := false }

/-- Modelled from the spec: the constraint application of the HasManyThrough
query builder (the builder class is not among the sources). Per the spec it
builds a single query against the related (far) table, inner-joined to the
through table on its local-key column against the through-foreign-key column
of the far table, selecting all far columns plus the foreign-key-to-owner
column of the through table aliased as through_(that column), and filters that
column by the local-key value of the owner — or, for several owners, by the
set of their distinct local-key values. -/
def HasManyThroughQueryBuilder.applyConstraints (b : HasManyThroughQueryBuilder) :
    HasManyThroughQueryBuilder :=
  if b.appliedConstraints then b
  else
    let rel := b.relation
    let throughFK := rel.throughTable ++ "." ++ rel.foreignKeyColumnName
    let base := { b.query with
      fromTable := rel.relatedTable
      selects := b.query.selects ++
        [rel.relatedTable ++ ".*", throughFK ++ " as through_" ++ rel.foreignKeyColumnName]
      innerJoins := b.query.innerJoins ++
        [(rel.throughTable, rel.throughTable ++ "." ++ rel.throughLocalKeyColumnName,
          rel.relatedTable ++ "." ++ rel.throughForeignKeyColumnName)] }
    match b.parent with
    | ParentArg.one m =>
      { b with appliedConstraints := true
               query := { base with wheres := base.wheres ++ [(throughFK, m.get rel.localKey)] } }
    | ParentArg.many ms =>
      { b with appliedConstraints := true
               query := { base with whereIns := base.whereIns ++
                 [(throughFK, unique (ms.map (fun m => m.get rel.localKey)))] } }

/-- The relation of the concrete scenario of claim C1: owner Country with key
id; through User with country_id; far Post with user_id. -/
def c1Relation : HasManyThroughKeys :=
  { localKey := "id", localKeyColumnName := "id", foreignKeyColumnName := "country_id",
    throughLocalKeyColumnName := "id", throughForeignKeyColumnName := "user_id",
    relatedTable := "posts", throughTable := "users" }

/-- The country with id 1. -/
def c1Country : Model := { attrs := [("id", JSVal.vNum 1)] }

/-- The query claim C1 expects, read off its SQL: SELECT posts.*,
users.country_id AS through_country_id FROM posts INNER JOIN users ON
users.id = posts.user_id WHERE users.country_id = 1. This definition follows
the words of the claim, for comparison with the built query. -/
def c1ExpectedQuery : SelectQuery :=
  { fromTable := "posts"
    selects := ["posts.*", "users.country_id as through_country_id"]
    innerJoins := [("users", "users.id", "posts.user_id")]
    wheres := [("users.country_id", JSVal.vNum 1)]
    whereIns := [] }

/-- Claim C1: the related-rows query produced for the posts relation of the
country with id 1 is exactly the expected select-join-filter query. -/
theorem hasManyThrough_query_sql_for_country_one :
    (HasManyThroughClient.query (ParentArg.one c1Country) c1Relation).applyConstraints.query
      = c1ExpectedQuery := by
  decide

/-! ## Eager-load coordinator (modelled from the spec)

The coordinator class is not among the sources; only its tests are. It is
modelled from the spec: an empty root set is skipped outright; otherwise one
batched query is built with the parents as the whereIn set, the constraint
callback of the caller runs over it, the fetch executes and the matcher
distributes the rows. -/

/-- The relationship query handed to a preload constraint callback. -/
structure EagerQuery where
  relationName : String
  isEager : Bool
  whereIns : List (String × List JSVal)
  pagination : Option Nat
deriving DecidableEq, Repr

/-- Modelled from the spec: paginating a relationship query is disallowed
while serving a preload — it fails fast with an error naming the relation —
and otherwise records the requested page. -/
def EagerQuery.paginate (q : EagerQuery) (page : Nat) : Except String EagerQuery :=
  if q.isEager then
    Except.error ("Cannot paginate relationship \"" ++ q.relationName ++ "\" during preload")
  else
    Except.ok { q with pagination := some page }

/-- Outcome of preloading one relation: the matched assignment for each parent
and how many relationship queries were issued. -/
structure PreloadResult where
  matched : List (Model × List Model)
  queriesIssued : Nat
deriving DecidableEq, Repr

/-- Modelled from the spec: the per-relation processing of the eager-load
coordinator. An empty root result set is skipped entirely — no query, no
callback; otherwise the batched query is built over the distinct local-key
values of all parents, the optional constraint callback transforms it, the
fetched rows are matched onto the parents, and exactly one query is issued. -/
def preloadRelation (rel : HasManyRel) (parents : List Model)
    (callback : Option (EagerQuery → Except String EagerQuery))
    (fetch : EagerQuery → List Model) : Except String PreloadResult :=
  if parents.isEmpty then Except.ok { matched := [], queriesIssued := 0 }
  else
    let q0 : EagerQuery :=
      { relationName := rel.relationName, isEager := true
        whereIns := [(rel.foreignKey, unique (parents.map (fun p => p.get rel.localKey)))]
        pagination := none }
    match (match callback with
           | none => Except.ok q0
           | some cb => cb q0) with
    | Except.error e => Except.error e
    | Except.ok q =>
      match HasMany.setRelatedForMany rel parents (fetch q) with
      | Except.error e => Except.error e
      | Except.ok matched => Except.ok { matched := matched, queriesIssued := 1 }

/-- Claim C7: preloading a relation over an empty root result set skips it
entirely — zero queries issued and the constraint callback never invoked, so
even an always-failing callback leaves the preload succeeding with the empty
result set. -/
theorem preload_empty_roots_skips (rel : HasManyRel)
    (callback : Option (EagerQuery → Except String EagerQuery))
    (fetch : EagerQuery → List Model) :
    preloadRelation rel [] callback fetch
      = Except.ok { matched := [], queriesIssued := 0 } := rfl

/-- Claim C8: a preload over a nonempty root set whose constraint callback
requests pagination fails fast with the pagination error naming the relation,
instead of executing a paginated query. -/
theorem preload_paginate_rejected (rel : HasManyRel) (parents : List Model)
    (hne : parents ≠ []) (page : Nat) (fetch : EagerQuery → List Model) :
    preloadRelation rel parents (some (fun q => q.paginate page)) fetch
      = Except.error
          ("Cannot paginate relationship \"" ++ rel.relationName ++ "\" during preload") := by
  have hne2 : parents.isEmpty = false := by
    cases parents with
    | nil => exact absurd rfl hne
    | cons a l => rfl
  unfold preloadRelation
  simp [hne2, EagerQuery.paginate]

/-- Witness for claim C8: preloading the posts relation for one country with a
callback paginating to page 1 rejects with the error of the test suite. -/
theorem preload_paginate_rejected_witness :
    preloadRelation c5Relation [{ attrs := [("id", JSVal.vNum 1)] }]
        (some (fun q => q.paginate 1)) (fun _ => [])
      = Except.error "Cannot paginate relationship \"posts\" during preload" :=
  preload_paginate_rejected c5Relation [{ attrs := [("id", JSVal.vNum 1)] }]
    (by decide) 1 (fun _ => [])
